import Mathlib

/-!
Verification of the samup transcoding engine (src/transcriber.rs).

The engine is a character-class-driven state machine with an explicit stack
of open HTML constructs.  Each definition below embeds the corresponding
Rust item; items whose source is not present under src/ (the current crate
root that `transcriber.rs` imports from) carry a doc comment starting with
"Modelled from the spec:".

Bytes are modelled as Nat (the inputs are u8 values, all < 256), the output
sink as a String.  A Rust `write_fmt(format_args!("_{curr_char}"))` with
`curr_char : u8` renders the byte's decimal value, which we translate as
`toString b`; a `write_all(&[curr_char])` appends the raw byte, translated
as `chr b`.
-/

namespace Samup

/-- Modelled from the spec: character classes (CharClass, §3); mirrors the
`enum C` of lib.rs with the Octothorpe class that the current transcriber
dispatches on. -/
inductive C
  | Whitespace
  | Newline
  | Underscore
  | Asterisk
  | Octothorpe
  | Caret
  | Colon
  | SqBracketL
  | SqBracketR
  | ParenL
  | ParenR
  | Digit
  | Content
deriving DecidableEq, Repr

/-- Modelled from the spec: the Link accumulation mode
{AccumulatingHref, AccumulatingLabel} (§3); `LinkState::Link` accumulates
the URL, `LinkState::Label` accumulates the visible label. -/
inductive LinkState
  | Link
  | Label
deriving DecidableEq, Repr

/-- Modelled from the spec: the payload of `Tag::Link` — a growable URL
buffer plus the accumulation mode. -/
structure InnerLink where
  url : String
  state : LinkState
deriving DecidableEq, Repr

/-- Modelled from the spec: the open-construct sum type (`Tag`); `H` carries
the heading level (saturating at 6), the footnote variants carry the decimal
accumulated index. -/
inductive Tag
  | H (level : Nat)
  | I
  | P
  | Strong
  | Link (l : InnerLink)
  | FootNoteLink (n : Nat)
  | FootNoteRef (n : Nat)
deriving DecidableEq, Repr

/-- One raw output byte, as written by `write_all(&[curr_char])`. -/
def chr (b : Nat) : String := String.singleton (Char.ofNat b)

/-- Modelled from the spec: `classify(byte) -> CharClass` (§4.1); byte map
taken from `impl From<u8> for C` in lib.rs, plus the Octothorpe class (35)
that the current transcriber requires. -/
def classify (b : Nat) : C :=
  if b == 32 || b == 9 then C.Whitespace
  else if b == 10 || b == 13 then C.Newline
  else if b == 95 then C.Underscore
  else if b == 42 then C.Asterisk
  else if b == 35 then C.Octothorpe
  else if b == 94 then C.Caret
  else if b == 58 then C.Colon
  else if b == 91 then C.SqBracketL
  else if b == 93 then C.SqBracketR
  else if b == 40 then C.ParenL
  else if b == 41 then C.ParenR
  else if 48 ≤ b && b ≤ 57 then C.Digit
  else C.Content

/-- Modelled from the spec: `Tag::write_open` — the fixed opening fragment
of each construct (§4.2, §6); the non-heading fragments match lib.rs. -/
def Tag.write_open : Tag → String
  | Tag.H n => "<h" ++ toString n ++ ">"
  | Tag.I => "<i>"
  | Tag.P => "<p>"
  | Tag.Strong => "<strong>"
  | Tag.Link l => "<a href=\"" ++ l.url ++ "\" target=\"_blank\">"
  | Tag.FootNoteLink n =>
      "<a id=\"link-" ++ toString n ++ "\" target=\"#ref-" ++ toString n ++
        "\"><sup>" ++ toString n ++ "</sup></a>"
  | Tag.FootNoteRef n =>
      "<p class=\"footnote\" id=\"ref-" ++ toString n ++
        "\"><span class=\"footnote\">" ++ toString n ++ ":</span> "

/-- Modelled from the spec: `Tag::write_close` — the closing fragment; the
FootNoteLink close renders the full superscript anchor of §6
(`text[^n]` → `<a id="link-n" target="#ref-n"><sup>n</sup></a>`), the
FootNoteRef close renders the back-link anchor. -/
def Tag.write_close : Tag → String
  | Tag.H n => "</h" ++ toString n ++ ">"
  | Tag.I => "</i>"
  | Tag.P => "</p>"
  | Tag.Strong => "</strong>"
  | Tag.Link _ => "</a>"
  | Tag.FootNoteLink n =>
      "<a id=\"link-" ++ toString n ++ "\" target=\"#ref-" ++ toString n ++
        "\"><sup>" ++ toString n ++ "</sup></a>"
  | Tag.FootNoteRef n =>
      "<a href=\"#link-" ++ toString n ++ "\">" ++
        String.singleton (Char.ofNat 128281) ++ "</a></p>"

/-- `Tag::write_link_no_title`: the anchor whose href and visible text are
both the buffered URL (lib.rs). -/
def InnerLink.write_link_no_title (l : InnerLink) : String :=
  "<a href=\"" ++ l.url ++ "\" target=\"_blank\">" ++ l.url ++ "</a>"

/-- Modelled from the spec: `Tag::new_h()` — a fresh pending Heading at
level 1. -/
def Tag.new_h : Tag := Tag.H 1

/-- Modelled from the spec: `HLevel::inc_h` / `inc_level` — the heading
level increments only up to 6 and reports whether it incremented (§3). -/
def inc_h (n : Nat) : Nat × Bool :=
  if n < 6 then (n + 1, true) else (n, false)

/-- Modelled from the spec: `HLevel::as_octothorpes` — the run of `#`
markers the pending heading consumed. -/
def as_octothorpes (n : Nat) : String :=
  String.mk (List.replicate n '#')

/-- Modelled from the spec: `char_to_digit` — the numeric value of an ASCII
digit byte. -/
def char_to_digit (b : Nat) : Nat := b - 48

/-- Modelled from the spec: `push_fn_digit` — decimal accumulation of the
footnote index, `index = index * 10 + digit` (§3). -/
def push_fn_digit (n b : Nat) : Nat := n * 10 + char_to_digit b

/-- Modelled from the spec: `Tag::new_fn_link` — a fresh footnote marker
seeded with the first digit byte. -/
def Tag.new_fn_link (b : Nat) : Tag := Tag.FootNoteLink (char_to_digit b)

/-- Modelled from the spec: `push_link` — appends scanned bytes to the URL
buffer. -/
def InnerLink.push_link (l : InnerLink) (s : String) : InnerLink :=
  { l with url := l.url ++ s }

/-- Modelled from the spec: `end_url` — flips the Link accumulation mode to
the label after `(` is seen. -/
def InnerLink.end_url (l : InnerLink) : InnerLink :=
  { l with state := LinkState.Label }

/-- Modelled from the spec: `Tag::new_link` — a Link construct pre-seeded
with the first buffered byte, in URL-accumulation mode. -/
def Tag.new_link (b : Nat) : Tag :=
  Tag.Link { url := chr b, state := LinkState.Link }

/-- Result of one per-class handler: the override for the recorded previous
class (`Ok(Some(c))` vs `Ok(None)`), the new tag stack, and the bytes
written to the sink. -/
structure Step where
  next_c : Option C
  stack : List Tag
  out : String
deriving DecidableEq, Repr

/-- `Transcriber::transcribe_whitespace`: lookbehind-driven handling of a
space/tab byte `b`, given the previous class and the tag stack
(transcriber.rs lines 132-266). -/
def transcribe_whitespace (b : Nat) (prev : C) (stack : List Tag) : Step :=
  match prev with
  | C.Whitespace | C.Content => ⟨none, stack, chr b⟩
  | C.Newline => ⟨none, stack, "\n" ++ toString b⟩
  | C.Underscore =>
    match stack with
    | Tag.I :: rest => ⟨none, rest, Tag.I.write_close ++ chr b⟩
    | t :: rest => ⟨none, t :: rest, "_" ++ toString b⟩
    | [] => ⟨none, [], "_" ++ toString b⟩
  | C.Asterisk =>
    match stack with
    | Tag.Strong :: rest => ⟨none, rest, Tag.Strong.write_close ++ chr b⟩
    | t :: rest => ⟨none, t :: rest, "*" ++ toString b⟩
    | [] => ⟨none, [], "*" ++ toString b⟩
  | C.Octothorpe =>
    match stack with
    | Tag.H n :: rest => ⟨none, Tag.H n :: rest, (Tag.H n).write_open⟩
    | t :: rest => ⟨none, t :: rest, "#" ++ toString b⟩
    | [] => ⟨none, [], "#" ++ toString b⟩
  | C.Caret => ⟨none, stack, "[^" ++ toString b⟩
  | C.Colon =>
    match stack with
    | Tag.FootNoteRef n :: rest =>
        ⟨none, Tag.FootNoteRef n :: rest, (Tag.FootNoteRef n).write_open ++ chr b⟩
    | t :: rest => ⟨none, t :: rest, ":" ++ toString b⟩
    | [] => ⟨none, [], ":" ++ toString b⟩
  | C.SqBracketL =>
    match stack with
    | [] => ⟨none, [Tag.P], Tag.P.write_open ++ "[" ++ toString b⟩
    | st => ⟨none, st, "[" ++ toString b⟩
  | C.SqBracketR =>
    match stack with
    | Tag.Link l :: [] =>
        ⟨none, [Tag.P], Tag.P.write_open ++ l.write_link_no_title ++ chr b⟩
    | Tag.Link l :: rest => ⟨none, rest, l.write_link_no_title ++ chr b⟩
    | Tag.FootNoteRef n :: rest =>
        ⟨none, rest, (Tag.FootNoteRef n).write_close ++ chr b⟩
    | Tag.FootNoteLink n :: rest =>
        ⟨none, rest, "[^" ++ toString n ++ "]" ++ toString b⟩
    | t :: rest => ⟨none, t :: rest, "]" ++ toString b⟩
    | [] => ⟨none, [], "]" ++ toString b⟩
  | C.ParenL =>
    match stack with
    | Tag.Link l :: rest => ⟨none, rest, "[" ++ l.url ++ "]("⟩
    | t :: rest => ⟨none, t :: rest, "("⟩
    | [] => ⟨none, [], "("⟩
  | C.ParenR =>
    match stack with
    | Tag.Link l :: rest => ⟨none, rest, (Tag.Link l).write_close ++ chr b⟩
    | t :: rest => ⟨none, t :: rest, chr b⟩
    | [] => ⟨none, [], chr b⟩
  | C.Digit =>
    match stack with
    | Tag.FootNoteLink n :: rest => ⟨none, rest, "[^" ++ toString n ++ toString b⟩
    | Tag.FootNoteRef n :: rest => ⟨none, rest, "[^" ++ toString n ++ toString b⟩
    | t :: rest => ⟨none, t :: rest, chr b⟩
    | [] => ⟨none, [], chr b⟩

/-- `Transcriber::transcribe_newline`: handling of a newline byte `b`
(transcriber.rs lines 267-403).  A newline after Whitespace/Content writes
nothing (its emission is deferred); after a second Newline an open Paragraph
is closed, any other top passes the byte through, and an empty stack opens a
fresh Paragraph; the Asterisk arm pattern-matches `Tag::I` exactly as the
source does. -/
def transcribe_newline (b : Nat) (prev : C) (stack : List Tag) : Step :=
  match prev with
  | C.Whitespace | C.Content => ⟨none, stack, ""⟩
  | C.Newline =>
    match stack with
    | Tag.P :: rest => ⟨none, rest, Tag.P.write_close ++ chr b⟩
    | t :: rest => ⟨none, t :: rest, chr b⟩
    | [] => ⟨none, [Tag.P], Tag.P.write_open⟩
  | C.Digit =>
    match stack with
    | Tag.FootNoteLink n :: rest => ⟨none, rest, "[^" ++ toString n ++ toString b⟩
    | Tag.FootNoteRef n :: rest => ⟨none, rest, "[^" ++ toString n ++ toString b⟩
    | t :: rest => ⟨none, t :: rest, chr b⟩
    | [] => ⟨none, [], chr b⟩
  | C.Colon =>
    match stack with
    | Tag.FootNoteRef n :: rest =>
        ⟨none, rest, "[^" ++ toString n ++ "]:" ++ toString b⟩
    | t :: rest => ⟨none, t :: rest, chr b⟩
    | [] => ⟨none, [], chr b⟩
  | C.Underscore =>
    match stack with
    | Tag.I :: rest => ⟨none, rest, Tag.I.write_close ++ chr b⟩
    | t :: rest => ⟨none, t :: rest, "_" ++ toString b⟩
    | [] => ⟨none, [], "_" ++ toString b⟩
  | C.Asterisk =>
    match stack with
    | Tag.I :: rest => ⟨none, rest, Tag.I.write_close ++ chr b⟩
    | t :: rest => ⟨none, t :: rest, "*" ++ toString b⟩
    | [] => ⟨none, [], "*" ++ toString b⟩
  | C.Octothorpe =>
    match stack with
    | Tag.H n :: rest => ⟨none, rest, as_octothorpes n ++ chr b⟩
    | t :: rest => ⟨none, t :: rest, "#" ++ toString b⟩
    | [] => ⟨none, [], "#" ++ toString b⟩
  | C.Caret => ⟨none, stack, "[^" ++ toString b⟩
  | C.SqBracketL =>
    match stack with
    | [] => ⟨none, [Tag.P], Tag.P.write_open ++ "[" ++ toString b⟩
    | st => ⟨none, st, "[" ++ toString b⟩
  | C.SqBracketR =>
    match stack with
    | Tag.Link l :: [] =>
        ⟨none, [Tag.P], Tag.P.write_open ++ l.write_link_no_title ++ chr b⟩
    | Tag.Link l :: rest => ⟨none, rest, l.write_link_no_title ++ chr b⟩
    | Tag.FootNoteRef n :: rest =>
        ⟨none, rest, (Tag.FootNoteRef n).write_close ++ chr b⟩
    | Tag.FootNoteLink n :: rest =>
        ⟨none, rest, "[^" ++ toString n ++ "]" ++ toString b⟩
    | t :: rest => ⟨none, t :: rest, "]" ++ toString b⟩
    | [] => ⟨none, [], "]" ++ toString b⟩
  | C.ParenL =>
    match stack with
    | Tag.Link l :: rest => ⟨none, rest, "[" ++ l.url ++ "]("⟩
    | t :: rest => ⟨none, t :: rest, "("⟩
    | [] => ⟨none, [], "("⟩
  | C.ParenR =>
    match stack with
    | Tag.Link l :: rest => ⟨none, rest, (Tag.Link l).write_close ++ chr b⟩
    | t :: rest => ⟨none, t :: rest, chr b⟩
    | [] => ⟨none, [], chr b⟩

/-- `Transcriber::transcribe_underscore` (transcriber.rs lines 404-532):
opens/collapses the Italic construct depending on the lookbehind. -/
def transcribe_underscore (prev : C) (stack : List Tag) : Step :=
  match prev with
  | C.Whitespace => ⟨none, Tag.I :: stack, Tag.I.write_open⟩
  | C.Newline =>
    match stack with
    | t :: rest => ⟨none, Tag.I :: t :: rest, "\n" ++ Tag.I.write_open⟩
    | [] => ⟨none, [Tag.I, Tag.P], "\n" ++ Tag.P.write_open ++ Tag.I.write_open⟩
  | C.Octothorpe =>
    match stack with
    | Tag.H n :: rest =>
        ⟨none, Tag.I :: Tag.H n :: rest, (Tag.H n).write_open ++ Tag.I.write_open⟩
    | t :: rest => ⟨none, Tag.I :: t :: rest, "#" ++ Tag.I.write_open⟩
    | [] => ⟨none, [Tag.I], "#" ++ Tag.I.write_open⟩
  | C.Caret => ⟨none, stack, "[^"⟩
  | C.Colon =>
    match stack with
    | Tag.FootNoteRef n :: rest =>
        ⟨none, Tag.I :: Tag.FootNoteRef n :: rest,
          (Tag.FootNoteRef n).write_open ++ Tag.I.write_open⟩
    | t :: rest => ⟨none, Tag.I :: t :: rest, ":" ++ Tag.I.write_open⟩
    | [] => ⟨none, [Tag.I, Tag.P], ":" ++ Tag.P.write_open ++ Tag.I.write_open⟩
  | C.SqBracketL =>
    match stack with
    | [] => ⟨none, [Tag.I, Tag.P], Tag.P.write_open ++ "[" ++ Tag.I.write_open⟩
    | st => ⟨none, Tag.I :: st, "[" ++ Tag.I.write_open⟩
  | C.Underscore | C.Content => ⟨none, stack, ""⟩
  | C.Asterisk => ⟨none, Tag.Strong :: stack, Tag.Strong.write_open⟩
  | C.SqBracketR =>
    match stack with
    | Tag.Link l :: [] => ⟨none, [Tag.P], Tag.P.write_open ++ l.write_link_no_title⟩
    | Tag.Link l :: rest => ⟨none, rest, l.write_link_no_title⟩
    | Tag.FootNoteLink n :: rest => ⟨none, rest, (Tag.FootNoteLink n).write_open⟩
    | t :: rest => ⟨none, t :: rest, "]"⟩
    | [] => ⟨none, [], "]"⟩
  | C.ParenL =>
    match stack with
    | Tag.Link l :: rest => ⟨none, rest, "[" ++ l.url ++ "]("⟩
    | t :: rest => ⟨none, t :: rest, "("⟩
    | [] => ⟨none, [], "("⟩
  | C.ParenR =>
    match stack with
    | Tag.Link l :: rest => ⟨none, rest, (Tag.Link l).write_close⟩
    | t :: rest => ⟨none, t :: rest, ")"⟩
    | [] => ⟨none, [], ")"⟩
  | C.Digit =>
    match stack with
    | Tag.FootNoteRef n :: rest => ⟨none, rest, "[^" ++ toString n ++ "]"⟩
    | t :: rest => ⟨none, t :: rest, ""⟩
    | [] => ⟨none, [], ""⟩

/-- `Transcriber::transcribe_asterisk` (transcriber.rs lines 533-661):
opens/collapses the Strong construct; the Octothorpe arms write an `<i>`
open fragment while pushing Strong, exactly as the source does. -/
def transcribe_asterisk (prev : C) (stack : List Tag) : Step :=
  match prev with
  | C.Whitespace => ⟨none, Tag.Strong :: stack, Tag.Strong.write_open⟩
  | C.Newline =>
    match stack with
    | t :: rest => ⟨none, Tag.Strong :: t :: rest, "\n" ++ Tag.Strong.write_open⟩
    | [] =>
        ⟨none, [Tag.Strong, Tag.P],
          "\n" ++ Tag.P.write_open ++ Tag.Strong.write_open⟩
  | C.Octothorpe =>
    match stack with
    | Tag.H n :: rest =>
        ⟨none, Tag.Strong :: Tag.H n :: rest,
          (Tag.H n).write_open ++ Tag.Strong.write_open⟩
    | t :: rest => ⟨none, Tag.Strong :: t :: rest, "#" ++ Tag.I.write_open⟩
    | [] => ⟨none, [Tag.Strong], "#" ++ Tag.I.write_open⟩
  | C.Caret => ⟨none, stack, "[^"⟩
  | C.Colon =>
    match stack with
    | Tag.FootNoteRef n :: rest =>
        ⟨none, Tag.Strong :: Tag.FootNoteRef n :: rest,
          (Tag.FootNoteRef n).write_open ++ Tag.Strong.write_open⟩
    | t :: rest => ⟨none, Tag.Strong :: t :: rest, ":" ++ Tag.Strong.write_open⟩
    | [] =>
        ⟨none, [Tag.Strong, Tag.P],
          ":" ++ Tag.P.write_open ++ Tag.Strong.write_open⟩
  | C.SqBracketL =>
    match stack with
    | [] => ⟨none, [Tag.Strong, Tag.P], Tag.P.write_open ++ "[" ++ Tag.Strong.write_open⟩
    | st => ⟨none, Tag.Strong :: st, "[" ++ Tag.Strong.write_open⟩
  | C.Asterisk | C.Content => ⟨none, stack, ""⟩
  | C.Underscore => ⟨none, Tag.I :: stack, Tag.I.write_open⟩
  | C.SqBracketR =>
    match stack with
    | Tag.Link l :: [] => ⟨none, [Tag.P], Tag.P.write_open ++ l.write_link_no_title⟩
    | Tag.Link l :: rest => ⟨none, rest, l.write_link_no_title⟩
    | Tag.FootNoteLink n :: rest => ⟨none, rest, (Tag.FootNoteLink n).write_open⟩
    | t :: rest => ⟨none, t :: rest, "]"⟩
    | [] => ⟨none, [], "]"⟩
  | C.ParenL =>
    match stack with
    | Tag.Link l :: rest => ⟨none, rest, "[" ++ l.url ++ "]("⟩
    | t :: rest => ⟨none, t :: rest, "("⟩
    | [] => ⟨none, [], "("⟩
  | C.ParenR =>
    match stack with
    | Tag.Link l :: rest => ⟨none, rest, (Tag.Link l).write_close⟩
    | t :: rest => ⟨none, t :: rest, ")"⟩
    | [] => ⟨none, [], ")"⟩
  | C.Digit =>
    match stack with
    | Tag.FootNoteRef n :: rest => ⟨none, rest, "[^" ++ toString n ++ "]"⟩
    | t :: rest => ⟨none, t :: rest, ""⟩
    | [] => ⟨none, [], ""⟩

/-- `Transcriber::transcribe_octothorpe` (transcriber.rs lines 662-781):
after a Newline a fresh pending Heading is pushed and the previous class is
reported as Octothorpe; within a run of `#` the pending heading level
increments while it can (saturating at 6, with the excess `#` flushed
literally); every non-early-return path appends a literal `#` and reports
Content. -/
def transcribe_octothorpe (prev : C) (stack : List Tag) : Step :=
  match prev with
  | C.Content | C.Whitespace => ⟨some C.Content, stack, "#"⟩
  | C.Newline =>
    match stack with
    | Tag.H n :: rest =>
        ⟨some C.Octothorpe, Tag.new_h :: rest, (Tag.H n).write_close ++ "\n"⟩
    | t :: rest => ⟨some C.Octothorpe, Tag.new_h :: t :: rest, "\n"⟩
    | [] => ⟨some C.Octothorpe, [Tag.new_h], "\n"⟩
  | C.Octothorpe =>
    match stack with
    | Tag.H n :: rest =>
        let r := inc_h n
        if r.2 then ⟨some C.Octothorpe, Tag.H r.1 :: rest, ""⟩
        else ⟨some C.Content, Tag.H r.1 :: rest, (Tag.H r.1).write_open ++ "#"⟩
    | t :: rest => ⟨some C.Content, t :: rest, "#"⟩
    | [] => ⟨some C.Content, [], "#"⟩
  | C.Asterisk =>
      ⟨some C.Content, Tag.Strong :: stack, Tag.Strong.write_open ++ "#" ++ "#"⟩
  | C.Underscore =>
      ⟨some C.Content, Tag.I :: stack, Tag.I.write_open ++ "#" ++ "#"⟩
  | C.SqBracketL =>
    match stack with
    | [] => ⟨some C.Content, [Tag.P], Tag.P.write_open ++ "[" ++ "#"⟩
    | Tag.Link _ :: rest => ⟨some C.Content, rest, "[" ++ "#"⟩
    | Tag.FootNoteRef _ :: rest => ⟨some C.Content, rest, "[" ++ "#"⟩
    | Tag.FootNoteLink _ :: rest => ⟨some C.Content, rest, "[" ++ "#"⟩
    | t :: rest => ⟨some C.Content, t :: rest, "[" ++ "#"⟩
  | C.SqBracketR =>
    match stack with
    | Tag.Link l :: [] =>
        ⟨some C.Content, [Tag.P], Tag.P.write_open ++ l.write_link_no_title ++ "#"⟩
    | Tag.Link l :: rest => ⟨some C.Content, rest, l.write_link_no_title ++ "#"⟩
    | Tag.FootNoteLink n :: rest =>
        ⟨some C.Content, rest, (Tag.FootNoteLink n).write_open ++ "#"⟩
    | Tag.FootNoteRef n :: rest =>
        ⟨some C.Content, Tag.FootNoteRef n :: rest,
          (Tag.FootNoteRef n).write_open ++ "#"⟩
    | t :: rest => ⟨some C.Content, t :: rest, "]" ++ "#"⟩
    | [] => ⟨some C.Content, [], "]" ++ "#"⟩
  | C.ParenL =>
    match stack with
    | Tag.Link l :: rest => ⟨some C.Content, Tag.Link l :: rest, "#"⟩
    | t :: rest => ⟨some C.Content, t :: rest, "(" ++ "#"⟩
    | [] => ⟨some C.Content, [], "(" ++ "#"⟩
  | C.ParenR =>
    match stack with
    | Tag.Link l :: rest => ⟨some C.Content, rest, (Tag.Link l).write_close ++ "#"⟩
    | t :: rest => ⟨some C.Content, t :: rest, ")" ++ "#"⟩
    | [] => ⟨some C.Content, [], ")" ++ "#"⟩
  | C.Caret =>
    match stack with
    | Tag.FootNoteLink _ :: rest => ⟨some C.Content, rest, "^" ++ "#"⟩
    | Tag.FootNoteRef _ :: rest => ⟨some C.Content, rest, "^" ++ "#"⟩
    | t :: rest => ⟨some C.Content, t :: rest, "^" ++ "#"⟩
    | [] => ⟨some C.Content, [], "^" ++ "#"⟩
  | C.Colon =>
    match stack with
    | Tag.FootNoteRef n :: rest =>
        ⟨some C.Content, Tag.FootNoteRef n :: rest,
          (Tag.FootNoteRef n).write_open ++ "#"⟩
    | t :: rest => ⟨some C.Content, t :: rest, ":" ++ "#"⟩
    | [] => ⟨some C.Content, [], ":" ++ "#"⟩
  | C.Digit =>
    match stack with
    | Tag.FootNoteLink n :: rest => ⟨some C.Content, rest, "[^" ++ toString n ++ "#"⟩
    | Tag.FootNoteRef n :: rest => ⟨some C.Content, rest, "[^" ++ toString n ++ "#"⟩
    | t :: rest => ⟨some C.Content, t :: rest, "#"⟩
    | [] => ⟨some C.Content, [], "#"⟩

/-- `Transcriber::transcribe_caret` (transcriber.rs lines 782-792): `^` is
markup only directly after `[`; otherwise it is literal content. -/
def transcribe_caret (prev : C) (stack : List Tag) : Step :=
  match prev with
  | C.SqBracketL => ⟨none, stack, ""⟩
  | _ => ⟨some C.Content, stack, "^"⟩

/-- `Transcriber::transcribe_colon` (transcriber.rs lines 793-819): after a
`]` that closed a footnote marker the FootNoteLink converts into a
FootNoteRef (definition); otherwise the colon is buffered into an open Link
URL or emitted literally. -/
def transcribe_colon (prev : C) (stack : List Tag) : Step :=
  match prev with
  | C.SqBracketR =>
    match stack with
    | Tag.FootNoteLink n :: rest => ⟨none, Tag.FootNoteRef n :: rest, ""⟩
    | t :: rest => ⟨some C.Content, t :: rest, "]:"⟩
    | [] => ⟨some C.Content, [], "]:"⟩
  | _ =>
    match stack with
    | Tag.Link l :: rest => ⟨some C.Content, Tag.Link (l.push_link ":") :: rest, ""⟩
    | t :: rest => ⟨some C.Content, t :: rest, ":"⟩
    | [] => ⟨some C.Content, [], ":"⟩

/-- `Transcriber::transcribe_sq_bracket_l` (transcriber.rs lines 820-925);
the Asterisk arm writes the Strong open fragment while pushing `Tag::I`,
exactly as the source does. -/
def transcribe_sq_bracket_l (prev : C) (stack : List Tag) : Step :=
  match prev with
  | C.Underscore => ⟨none, Tag.I :: stack, Tag.I.write_open⟩
  | C.Asterisk => ⟨none, Tag.I :: stack, Tag.Strong.write_open⟩
  | C.Octothorpe =>
    match stack with
    | Tag.H n :: rest => ⟨none, Tag.H n :: rest, (Tag.H n).write_open⟩
    | t :: rest => ⟨none, t :: rest, "#"⟩
    | [] => ⟨none, [], "#"⟩
  | C.SqBracketL =>
    match stack with
    | [] => ⟨none, [Tag.P], Tag.P.write_open ++ "["⟩
    | st => ⟨none, st, "["⟩
  | C.SqBracketR =>
    match stack with
    | Tag.Link l :: [] => ⟨none, [Tag.P], Tag.P.write_open ++ l.write_link_no_title⟩
    | Tag.Link l :: rest => ⟨none, rest, l.write_link_no_title⟩
    | t :: rest => ⟨none, t :: rest, ""⟩
    | [] => ⟨none, [Tag.P], Tag.P.write_open⟩
  | C.Caret => ⟨none, stack, "[^"⟩
  | C.ParenR =>
    match stack with
    | Tag.Link l :: rest => ⟨none, rest, (Tag.Link l).write_close⟩
    | t :: rest => ⟨none, t :: rest, ")"⟩
    | [] => ⟨none, [], ""⟩
  | C.Digit =>
    match stack with
    | Tag.FootNoteLink n :: rest => ⟨none, rest, "[^" ++ toString n ++ "]"⟩
    | Tag.FootNoteRef n :: rest => ⟨none, rest, "[^" ++ toString n ++ "]"⟩
    | t :: rest => ⟨none, t :: rest, ""⟩
    | [] => ⟨none, [], ""⟩
  | C.Colon =>
    match stack with
    | Tag.FootNoteRef n :: rest =>
        ⟨none, Tag.FootNoteRef n :: rest, (Tag.FootNoteRef n).write_open⟩
    | t :: rest => ⟨none, t :: rest, ""⟩
    | [] => ⟨none, [], ""⟩
  | C.ParenL =>
    match stack with
    | Tag.Link l :: rest => ⟨none, rest, "[" ++ l.url ++ "]("⟩
    | t :: rest => ⟨none, t :: rest, "("⟩
    | [] => ⟨none, [], "("⟩
  | C.Newline =>
    match stack with
    | Tag.H n :: rest => ⟨none, rest, (Tag.H n).write_close ++ "\n"⟩
    | t :: rest => ⟨none, t :: rest, "\n"⟩
    | [] => ⟨none, [], ""⟩
  | C.Content | C.Whitespace => ⟨none, stack, ""⟩

/-- `Transcriber::transcribe_sq_bracket_r` (transcriber.rs lines 926-1046):
dispatches on the popped stack top first.  A URL-accumulating Link buffers
the pending delimiter byte into its URL (a Newline aborts it, flushing the
URL literally); a label-accumulating Link writes the pending delimiter to
the sink instead; footnote accumulators are left for the next byte to
resolve; anything else makes the `]` literal content. -/
def transcribe_sq_bracket_r (prev : C) (stack : List Tag) : Step :=
  match stack with
  | Tag.Link { url := url, state := LinkState.Link } :: rest =>
    match prev with
    | C.Whitespace =>
        ⟨none, Tag.Link { url := url, state := LinkState.Link } :: rest, ""⟩
    | C.Newline => ⟨none, rest, url ++ "\n]"⟩
    | C.Underscore =>
        ⟨none, Tag.Link { url := url ++ "_", state := LinkState.Link } :: rest, ""⟩
    | C.Asterisk =>
        ⟨none, Tag.Link { url := url ++ "*", state := LinkState.Link } :: rest, ""⟩
    | C.Caret =>
        ⟨none, Tag.Link { url := url ++ "^", state := LinkState.Link } :: rest, ""⟩
    | C.Colon =>
        ⟨none, Tag.Link { url := url ++ ":", state := LinkState.Link } :: rest, ""⟩
    | C.SqBracketL =>
        ⟨none, Tag.Link { url := url ++ "[", state := LinkState.Link } :: rest, ""⟩
    | C.SqBracketR =>
        ⟨none, Tag.Link { url := url ++ "]", state := LinkState.Link } :: rest, ""⟩
    | C.ParenL =>
        ⟨none, Tag.Link { url := url ++ "(", state := LinkState.Link } :: rest, ""⟩
    | C.ParenR =>
        ⟨none, Tag.Link { url := url ++ ")", state := LinkState.Link } :: rest, ""⟩
    | C.Octothorpe =>
        ⟨none, Tag.Link { url := url ++ "#", state := LinkState.Link } :: rest, ""⟩
    | C.Digit | C.Content =>
        ⟨none, Tag.Link { url := url, state := LinkState.Link } :: rest, ""⟩
  | Tag.Link { url := url, state := LinkState.Label } :: rest =>
    match prev with
    | C.Newline => ⟨none, rest, url ++ "\n]"⟩
    | C.Underscore =>
        ⟨none, Tag.Link { url := url, state := LinkState.Label } :: rest, "_"⟩
    | C.Asterisk =>
        ⟨none, Tag.Link { url := url, state := LinkState.Label } :: rest, "*"⟩
    | C.Caret =>
        ⟨none, Tag.Link { url := url, state := LinkState.Label } :: rest, "^"⟩
    | C.Colon =>
        ⟨none, Tag.Link { url := url, state := LinkState.Label } :: rest, ":"⟩
    | C.SqBracketL =>
        ⟨none, Tag.Link { url := url, state := LinkState.Label } :: rest, "["⟩
    | C.SqBracketR =>
        ⟨none, Tag.Link { url := url, state := LinkState.Label } :: rest, "]"⟩
    | C.ParenL =>
        ⟨none, Tag.Link { url := url, state := LinkState.Label } :: rest, "("⟩
    | C.ParenR =>
        ⟨none, Tag.Link { url := url, state := LinkState.Label } :: rest, ")"⟩
    | C.Octothorpe =>
        ⟨none, Tag.Link { url := url, state := LinkState.Label } :: rest, "#"⟩
    | C.Digit | C.Content | C.Whitespace =>
        ⟨none, Tag.Link { url := url, state := LinkState.Label } :: rest, ""⟩
  | Tag.FootNoteLink n :: rest => ⟨none, Tag.FootNoteLink n :: rest, ""⟩
  | Tag.FootNoteRef n :: rest => ⟨none, Tag.FootNoteRef n :: rest, ""⟩
  | t :: rest => ⟨some C.Content, t :: rest, "]"⟩
  | [] => ⟨some C.Content, [Tag.P], Tag.P.write_open ++ "]"⟩

/-- `Transcriber::transcribe_paren` (transcriber.rs lines 1047-1133): the
shared handler for `(` and `)` — the paren byte itself is never echoed;
a `(` directly after the `]` of a URL-accumulating Link renders the anchor
open tag and flips the Link into label mode. -/
def transcribe_paren (prev : C) (stack : List Tag) : Step :=
  match prev with
  | C.Whitespace | C.Content => ⟨none, stack, ""⟩
  | C.Newline => ⟨none, stack, ""⟩
  | C.SqBracketL =>
    match stack with
    | [] => ⟨none, [Tag.P], Tag.P.write_open ++ "["⟩
    | st => ⟨none, st, "["⟩
  | C.ParenL => ⟨none, stack, "("⟩
  | C.ParenR => ⟨none, stack, ")"⟩
  | C.SqBracketR =>
    match stack with
    | Tag.Link { url := url, state := LinkState.Link } :: rest =>
        ⟨none,
          Tag.Link (InnerLink.end_url { url := url, state := LinkState.Link }) :: rest,
          (Tag.Link { url := url, state := LinkState.Link }).write_open⟩
    | Tag.FootNoteLink n :: rest => ⟨none, rest, (Tag.FootNoteLink n).write_open⟩
    | t :: rest => ⟨none, t :: rest, "]"⟩
    | [] => ⟨none, [Tag.P], Tag.P.write_open ++ "]"⟩
  | C.Underscore => ⟨none, Tag.I :: stack, Tag.I.write_open⟩
  | C.Asterisk => ⟨none, Tag.Strong :: stack, Tag.Strong.write_open⟩
  | C.Octothorpe =>
    match stack with
    | Tag.H n :: rest => ⟨none, Tag.H n :: rest, (Tag.H n).write_open⟩
    | t :: rest => ⟨none, t :: rest, "#"⟩
    | [] => ⟨none, [], "#"⟩
  | C.Caret => ⟨none, stack, "[^"⟩
  | C.Colon =>
    match stack with
    | Tag.FootNoteRef n :: rest =>
        ⟨none, Tag.FootNoteRef n :: rest, (Tag.FootNoteRef n).write_open⟩
    | t :: rest => ⟨none, t :: rest, ":"⟩
    | [] => ⟨none, [], ":"⟩
  | C.Digit =>
    match stack with
    | Tag.FootNoteLink n :: rest => ⟨none, rest, "[^" ++ toString n⟩
    | Tag.FootNoteRef n :: rest => ⟨none, rest, "[^" ++ toString n⟩
    | t :: rest => ⟨none, t :: rest, ""⟩
    | [] => ⟨none, [], ""⟩

/-- `Transcriber::transcribe_digit` (transcriber.rs lines 1134-1178): a
digit directly after `[^` starts a footnote marker seeded with the digit; a
digit while a footnote accumulator is on top feeds the decimal index; a
digit while a Link accumulates goes into the URL; otherwise it is literal
content. -/
def transcribe_digit (b : Nat) (prev : C) (stack : List Tag) : Step :=
  if prev = C.Caret then
    match stack with
    | Tag.FootNoteLink n :: rest =>
        ⟨some C.Content, rest, "[^" ++ toString n ++ toString (char_to_digit b)⟩
    | Tag.FootNoteRef n :: rest =>
        ⟨some C.Content, rest, "[^" ++ toString n ++ toString (char_to_digit b)⟩
    | t :: rest => ⟨none, Tag.new_fn_link b :: t :: rest, ""⟩
    | [] => ⟨none, [Tag.new_fn_link b], ""⟩
  else
    match stack with
    | Tag.FootNoteLink n :: rest =>
        ⟨none, Tag.FootNoteLink (push_fn_digit n b) :: rest, ""⟩
    | Tag.FootNoteRef n :: rest =>
        ⟨none, Tag.FootNoteRef (push_fn_digit n b) :: rest, ""⟩
    | Tag.Link l :: rest =>
        ⟨some C.Content, Tag.Link (l.push_link (chr b)) :: rest, ""⟩
    | t :: rest => ⟨some C.Content, t :: rest, chr b⟩
    | [] => ⟨some C.Content, [], chr b⟩

/-- `Transcriber::transcribe_content` (transcriber.rs lines 1179-1309): a
plain content byte; it opens a Paragraph when no construct is open, feeds a
URL-accumulating Link, closes a pending Heading on the line before it, and
otherwise is copied to the sink. -/
def transcribe_content (b : Nat) (prev : C) (stack : List Tag) : Step :=
  match prev with
  | C.Whitespace | C.Content =>
    match stack with
    | [] => ⟨none, [Tag.P], Tag.P.write_open ++ chr b⟩
    | Tag.Link { url := url, state := LinkState.Link } :: rest =>
        ⟨none, Tag.Link { url := url ++ chr b, state := LinkState.Link } :: rest, ""⟩
    | t :: rest => ⟨none, t :: rest, chr b⟩
  | C.Newline =>
    match stack with
    | Tag.H n :: rest => ⟨none, rest, (Tag.H n).write_close ++ "\n" ++ chr b⟩
    | t :: rest => ⟨none, t :: rest, "\n" ++ chr b⟩
    | [] => ⟨none, [Tag.P], Tag.P.write_open ++ chr b⟩
  | C.Underscore =>
    match stack with
    | [] => ⟨none, [Tag.P], Tag.P.write_open ++ chr b⟩
    | t :: rest => ⟨none, t :: rest, chr b⟩
  | C.Asterisk =>
    match stack with
    | [] => ⟨none, [Tag.P], Tag.P.write_open ++ chr b⟩
    | t :: rest => ⟨none, t :: rest, chr b⟩
  | C.Octothorpe =>
    match stack with
    | Tag.H n :: rest => ⟨none, Tag.H n :: rest, (Tag.H n).write_open ++ chr b⟩
    | t :: rest => ⟨none, t :: rest, "#" ++ chr b⟩
    | [] => ⟨none, [], "#" ++ chr b⟩
  | C.Caret => ⟨none, stack, "^" ++ chr b⟩
  | C.Colon => ⟨none, stack, ":" ++ chr b⟩
  | C.SqBracketL =>
    match stack with
    | Tag.Link l :: rest => ⟨none, Tag.new_link b :: rest, "[" ++ l.url⟩
    | t :: rest => ⟨none, Tag.new_link b :: t :: rest, ""⟩
    | [] => ⟨none, [Tag.new_link b], ""⟩
  | C.SqBracketR =>
    match stack with
    | Tag.Link l :: rest =>
        ⟨none, Tag.Link l :: rest, (Tag.Link l).write_open ++ chr b⟩
    | Tag.FootNoteLink n :: rest =>
        ⟨none, Tag.FootNoteLink n :: rest, (Tag.FootNoteLink n).write_open ++ chr b⟩
    | Tag.FootNoteRef n :: rest => ⟨none, rest, "[^" ++ toString n ++ "]" ++ chr b⟩
    | t :: rest => ⟨none, t :: rest, chr b⟩
    | [] => ⟨none, [Tag.P], Tag.P.write_open ++ chr b⟩
  | C.ParenL =>
    match stack with
    | Tag.Link l :: rest => ⟨none, Tag.Link l :: rest, chr b⟩
    | t :: rest => ⟨none, t :: rest, "(" ++ chr b⟩
    | [] => ⟨none, [], "(" ++ chr b⟩
  | C.ParenR =>
    match stack with
    | Tag.Link l :: rest => ⟨none, rest, (Tag.Link l).write_close ++ chr b⟩
    | t :: rest => ⟨none, t :: rest, ")" ++ chr b⟩
    | [] => ⟨none, [], ")" ++ chr b⟩
  | C.Digit =>
    match stack with
    | Tag.FootNoteLink n :: rest => ⟨none, rest, "[^" ++ toString n ++ chr b⟩
    | Tag.FootNoteRef n :: rest => ⟨none, rest, "[^" ++ toString n ++ chr b⟩
    | t :: rest => ⟨none, t :: rest, chr b⟩
    | [] => ⟨none, [], chr b⟩

/-- The per-class dispatch of `Transcriber::transcribe` (transcriber.rs
lines 23-36): classify the byte and invoke the registered handler. -/
def dispatch (b : Nat) (c : C) (prev : C) (stack : List Tag) : Step :=
  match c with
  | C.Whitespace => transcribe_whitespace b prev stack
  | C.Newline => transcribe_newline b prev stack
  | C.Underscore => transcribe_underscore prev stack
  | C.Asterisk => transcribe_asterisk prev stack
  | C.Octothorpe => transcribe_octothorpe prev stack
  | C.Caret => transcribe_caret prev stack
  | C.Colon => transcribe_colon prev stack
  | C.SqBracketL => transcribe_sq_bracket_l prev stack
  | C.SqBracketR => transcribe_sq_bracket_r prev stack
  | C.ParenL => transcribe_paren prev stack
  | C.ParenR => transcribe_paren prev stack
  | C.Digit => transcribe_digit b prev stack
  | C.Content => transcribe_content b prev stack

/-- The engine state (`struct Transcriber`): cursor, lookbehind class, and
the construct stack (front of the list = most recently opened). -/
structure Transcriber where
  ix : Nat
  prev_c : C
  tag_stack : List Tag
deriving DecidableEq, Repr

/-- `Transcriber::new`: cursor 0, previous class Newline, empty stack. -/
def Transcriber.new : Transcriber :=
  { ix := 0, prev_c := C.Newline, tag_stack := [] }

/-- The state/output update performed by one `transcribe` call once the
current byte `b` is in hand: dispatch, record the (possibly overridden)
previous class, advance the cursor. -/
def stepByte (b : Nat) (s : Transcriber) : Transcriber × String :=
  let c := classify b
  let r := dispatch b c s.prev_c s.tag_stack
  ({ ix := s.ix + 1, prev_c := r.next_c.getD c, tag_stack := r.stack }, r.out)

/-- `Transcriber::transcribe` (transcriber.rs lines 20-40): reads
`input[self.ix]` — an out-of-bounds cursor is the Rust index panic,
modelled as `none` — then performs one step. -/
def transcribe (input : List Nat) (s : Transcriber) : Option (Transcriber × String) :=
  match input.get? s.ix with
  | none => none
  | some b => some (stepByte b s)

/-- The lookbehind-resolution half of `Transcriber::finish` (transcriber.rs
lines 42-115): resolves whatever the final previous class left pending.
Note that every `pop_tag` here removes the top even when the popped tag is
then dropped without any rendering (the `if let ... else` arms). -/
def finishResolve (prev : C) (stack : List Tag) : List Tag × String :=
  match prev with
  | C.Whitespace | C.Newline | C.Content => (stack, "")
  | C.Underscore =>
    match stack with
    | Tag.I :: rest => (rest, Tag.I.write_close)
    | _ :: rest => (rest, "_")
    | [] => ([], "_")
  | C.Asterisk =>
    match stack with
    | Tag.Strong :: rest => (rest, Tag.Strong.write_close)
    | _ :: rest => (rest, "*")
    | [] => ([], "*")
  | C.Octothorpe =>
    match stack with
    | Tag.H n :: rest =>
        let r := inc_h n
        (rest, as_octothorpes r.1 ++ (if r.2 then "" else "#"))
    | _ :: rest => (rest, "#")
    | [] => ([], "#")
  | C.Caret => (stack, "[^")
  | C.Colon =>
    match stack with
    | Tag.FootNoteRef n :: rest => (rest, "[^" ++ toString n ++ "]:")
    | _ :: rest => (rest, ":")
    | [] => ([], ":")
  | C.SqBracketL => (stack, "[")
  | C.SqBracketR =>
    match stack with
    | Tag.Link l :: [] => ([Tag.P], Tag.P.write_open ++ l.write_link_no_title)
    | Tag.Link l :: rest => (rest, l.write_link_no_title)
    | Tag.FootNoteLink n :: rest => (rest, (Tag.FootNoteLink n).write_close)
    | Tag.FootNoteRef n :: rest => (rest, (Tag.FootNoteRef n).write_close)
    | _ :: rest => (rest, "]")
    | [] => ([], "]")
  | C.ParenL =>
    match stack with
    | Tag.Link l :: rest => (rest, l.write_link_no_title ++ "(")
    | _ :: rest => (rest, "(")
    | [] => ([], "(")
  | C.ParenR =>
    match stack with
    | Tag.Link _ :: rest => (rest, "</a>")
    | _ :: rest => (rest, ")")
    | [] => ([], ")")
  | C.Digit =>
    match stack with
    | Tag.FootNoteLink n :: rest => (rest, "[^" ++ toString n)
    | Tag.FootNoteRef n :: rest => (rest, "[^" ++ toString n)
    | _ :: rest => (rest, "")
    | [] => ([], "")

/-- The drain loop of `Transcriber::finish` (transcriber.rs lines 116-129):
pops every remaining construct, rendering its close tag, or — for an
unresolved Link or FootNoteLink — the literal prefix it consumed. -/
def drainStack : List Tag → List Tag × String
  | [] => ([], "")
  | t :: rest =>
    let o :=
      match t with
      | Tag.Link l => "[" ++ l.url
      | Tag.FootNoteLink n => "[^" ++ toString n ++ "]"
      | other => other.write_close
    let r := drainStack rest
    (r.1, o ++ r.2)

/-- `Transcriber::finish`: resolve the pending lookbehind, then drain the
stack. -/
def finish (s : Transcriber) : Transcriber × String :=
  let r1 := finishResolve s.prev_c s.tag_stack
  let r2 := drainStack r1.1
  ({ s with tag_stack := r2.1 }, r1.2 ++ r2.2)

/-- Runs `fuel` consecutive `transcribe` calls, concatenating the written
output; `none` if any call reads out of bounds. -/
def runFrom (input : List Nat) : Nat → Transcriber → Option (Transcriber × String)
  | 0, s => some (s, "")
  | fuel + 1, s =>
    (transcribe input s).bind fun r =>
      (runFrom input fuel r.1).map fun r2 => (r2.1, r.2 ++ r2.2)

/-- Modelled from the spec: the driver consumes one byte at a time until
the input is exhausted (§2), starting from a fresh engine. -/
def runAll (input : List Nat) : Option (Transcriber × String) :=
  runFrom input input.length Transcriber.new

/-- Modelled from the spec: the single entry point
`transcribe(input, output)` (§6) — run every byte, then invoke the
Finalizer once; the result is everything written to the sink. -/
def transcribe_doc (input : List Nat) : Option String :=
  (runAll input).map fun r => r.2 ++ (finish r.1).2

/-- The byte sequence of an ASCII string, for concrete test inputs. -/
def strBytes (s : String) : List Nat := s.data.map Char.toNat

/-! Basic facts about single steps and the driver. -/

/-- With the cursor in bounds, `transcribe` reads the byte at the cursor
and performs exactly one step. -/
theorem step_some (input : List Nat) (s : Transcriber) (h : s.ix < input.length) :
    transcribe input s = some (stepByte (input.get ⟨s.ix, h⟩) s) := by
  unfold transcribe
  rw [List.get?_eq_get h]

/-- With the cursor out of bounds, the read `input[self.ix]` has no value
(the Rust index panic). -/
theorem step_none (input : List Nat) (s : Transcriber) (h : input.length ≤ s.ix) :
    transcribe input s = none := by
  unfold transcribe
  rw [List.get?_eq_none.mpr h]

/-- A run of `fuel` steps succeeds whenever the cursor stays in bounds, and
advances the cursor by exactly `fuel`. -/
theorem runFrom_some (input : List Nat) : ∀ (fuel : Nat) (s : Transcriber),
    s.ix + fuel ≤ input.length →
    ∃ s2 o2, runFrom input fuel s = some (s2, o2) ∧ s2.ix = s.ix + fuel := by
  intro fuel
  induction fuel with
  | zero => intro s _; exact ⟨s, "", rfl, rfl⟩
  | succ n ih =>
    intro s h
    have hlt : s.ix < input.length := by omega
    have ht := step_some input s hlt
    have hix1 : (stepByte (input.get ⟨s.ix, hlt⟩) s).1.ix = s.ix + 1 := rfl
    obtain ⟨s2, o2, hr, hix⟩ := ih (stepByte (input.get ⟨s.ix, hlt⟩) s).1 (by omega)
    refine ⟨s2, (stepByte (input.get ⟨s.ix, hlt⟩) s).2 ++ o2, ?_, by omega⟩
    simp only [runFrom, ht, Option.some_bind, hr, Option.map_some']

/-- The drain loop of the Finalizer pops every remaining construct. -/
theorem drainStack_fst : ∀ ts : List Tag, (drainStack ts).1 = []
  | [] => rfl
  | _ :: rest => drainStack_fst rest

/-- After `finish`, the construct stack is empty. -/
theorem finish_tag_stack (s : Transcriber) : (finish s).1.tag_stack = [] :=
  drainStack_fst _

/-! Settling the claims. -/

/-- Claim C1 (amended): for every input byte sequence, processing every
byte from a fresh engine succeeds (no step reads out of bounds), consumes
the whole input, and running the Finalizer leaves the construct stack
empty — every pushed construct has been popped.  The drain loop renders a
close tag or literal-prefix flush for each construct it pops, but the
lookbehind-resolution half of `finish` may pop a construct and drop it
with only the pending delimiter echoed (see the counterexample), so the
per-construct rendering guarantee holds only for the drain. -/
theorem c1_totality (input : List Nat) :
    ∃ s o, runAll input = some (s, o) ∧ s.ix = input.length ∧
      (finish s).1.tag_stack = [] := by
  obtain ⟨s2, o2, hr, hix⟩ :=
    runFrom_some input input.length Transcriber.new (by simp [Transcriber.new])
  exact ⟨s2, o2, hr, by simpa [Transcriber.new] using hix, finish_tag_stack s2⟩

/-- Claim C1, counterexample to the per-construct rendering clause: on
input " *_" (bytes 32, 42, 95) the final state has two Strong constructs
open; resolving the pending underscore pops the first Strong and writes
only the literal "_" — neither its close tag nor any flush for it — so the
final output opens two strong elements and closes one. -/
theorem c1_counterexample :
    transcribe_doc [32, 42, 95] = some "\n32<strong><strong>_</strong>" ∧
    runAll [32, 42, 95] =
      some ({ ix := 3, prev_c := C.Underscore,
              tag_stack := [Tag.Strong, Tag.Strong] }, "\n32<strong><strong>") ∧
    finishResolve C.Underscore [Tag.Strong, Tag.Strong] = ([Tag.Strong], "_") ∧
    "_" ≠ Tag.Strong.write_close ∧ "_" ≠ "*" := by
  refine ⟨rfl, rfl, rfl, ?_, ?_⟩ <;> decide

/-- Claim C2: evaluation at the failing inputs.  In `transcribe_newline`
the Asterisk arm pattern-matches `Tag::I`: with Strong on top of the stack
a newline after `*` emits the `*` literally (followed by the decimal
rendering of the newline byte) and leaves Strong open, instead of closing
it; with I on top it pops the I and emits its close tag even though `_` is
the Italic delimiter.  The symmetric Whitespace handler and the Finalizer
both pair `*` with Strong. -/
theorem c2_newline_asterisk_eval :
    runAll [32, 42, 10] =
      some ({ ix := 3, prev_c := C.Newline, tag_stack := [Tag.Strong] },
        "\n32<strong>*10") ∧
    runAll [95, 42, 10] =
      some ({ ix := 3, prev_c := C.Newline, tag_stack := [Tag.I, Tag.P] },
        "\n<p><i><i></i>\n") ∧
    transcribe_newline 10 C.Asterisk [Tag.Strong] = ⟨none, [Tag.Strong], "*10"⟩ ∧
    transcribe_newline 10 C.Asterisk [Tag.I] = ⟨none, [], Tag.I.write_close ++ chr 10⟩ ∧
    transcribe_whitespace 32 C.Asterisk [Tag.Strong] =
      ⟨none, [], Tag.Strong.write_close ++ chr 32⟩ := by
  refine ⟨rfl, rfl, ?_, rfl, rfl⟩
  decide

/-- Claim C3 (amended): on a second consecutive Newline, an open Paragraph
on top of the stack is popped and closed; any other construct on top
passes the newline byte through with the stack unchanged; but with an
empty stack the blank line itself opens and pushes a fresh Paragraph. -/
theorem c3_blank_line :
    (∀ (b : Nat) (rest : List Tag),
      transcribe_newline b C.Newline (Tag.P :: rest) =
        ⟨none, rest, Tag.P.write_close ++ chr b⟩) ∧
    (∀ (b : Nat) (t : Tag) (rest : List Tag), t ≠ Tag.P →
      transcribe_newline b C.Newline (t :: rest) = ⟨none, t :: rest, chr b⟩) ∧
    (∀ b : Nat,
      transcribe_newline b C.Newline [] = ⟨none, [Tag.P], Tag.P.write_open⟩) := by
  refine ⟨fun b rest => rfl, ?_, fun b => rfl⟩
  intro b t rest h
  cases t with
  | P => exact absurd rfl h
  | H n => rfl
  | I => rfl
  | Strong => rfl
  | Link l => rfl
  | FootNoteLink n => rfl
  | FootNoteRef n => rfl

/-- Claim C3, witness: a non-Paragraph top (an Italic) is left untouched by
the blank-line rule. -/
theorem c3_witness :
    transcribe_newline 10 C.Newline [Tag.I] = ⟨none, [Tag.I], chr 10⟩ :=
  c3_blank_line.2.1 10 Tag.I [] (by decide)

/-- Claim C3, counterexample: a Newline consumed with previous class
Newline and an empty stack opens a new Paragraph (the claim says nothing
further happens and no construct is opened by the blank line itself). -/
theorem c3_counterexample :
    runAll [10] =
      some ({ ix := 1, prev_c := C.Newline, tag_stack := [Tag.P] }, "<p>") ∧
    ([Tag.P] : List Tag) ≠ [] := by
  exact ⟨rfl, by decide⟩

/-- Claim C4 (amended): the heading level saturates at 6 — `inc_h`
increments below 6 and refuses at 6, so the seventh `#` of a run is
emitted as literal content — and for input "####### h6" the output is
"\n<h6># h6</h6>" (with the leading line break the heading handler writes
after a Newline lookbehind; the claim's expected output lacks it). -/
theorem c4_heading_saturation :
    (∀ n, n < 6 → inc_h n = (n + 1, true)) ∧
    (∀ n, 6 ≤ n → inc_h n = (n, false)) ∧
    (∀ rest, transcribe_octothorpe C.Octothorpe (Tag.H 6 :: rest) =
      ⟨some C.Content, Tag.H 6 :: rest, (Tag.H 6).write_open ++ "#"⟩) ∧
    transcribe_doc (strBytes "####### h6") = some "\n<h6># h6</h6>" := by
  refine ⟨?_, ?_, fun rest => rfl, rfl⟩
  · intro n h; unfold inc_h; rw [if_pos h]
  · intro n h; unfold inc_h; rw [if_neg (by omega)]

/-- Claim C4, witness: the level increments at 3 and saturates at 6. -/
theorem c4_witness : inc_h 3 = (4, true) ∧ inc_h 6 = (6, false) :=
  ⟨c4_heading_saturation.1 3 (by decide), c4_heading_saturation.2.1 6 (by decide)⟩

/-- Claim C4, counterexample: the claim's expected output for
"####### h6" omits the leading line break the engine writes. -/
theorem c4_counterexample :
    transcribe_doc (strBytes "####### h6") = some "\n<h6># h6</h6>" ∧
    (some "\n<h6># h6</h6>" : Option String) ≠ some "<h6># h6</h6>" := by
  exact ⟨rfl, by decide⟩

/-- Claim C5 (amended): while a footnote accumulator is on top of the
stack, a digit byte whose previous class is not Caret updates the index by
decimal accumulation, `index = index * 10 + digit`, and input "note[^12]"
renders the multi-digit index 12; but a digit whose previous class is
Caret while an accumulator is already on top (a nested `[^` marker) pops
the accumulator and flushes it literally — `[^`, the old index, then the
new digit — instead of updating its index. -/
theorem c5_digit_accumulation :
    (∀ (b : Nat) (prev : C) (n : Nat) (rest : List Tag), prev ≠ C.Caret →
      transcribe_digit b prev (Tag.FootNoteLink n :: rest) =
        ⟨none, Tag.FootNoteLink (push_fn_digit n b) :: rest, ""⟩) ∧
    (∀ (b : Nat) (prev : C) (n : Nat) (rest : List Tag), prev ≠ C.Caret →
      transcribe_digit b prev (Tag.FootNoteRef n :: rest) =
        ⟨none, Tag.FootNoteRef (push_fn_digit n b) :: rest, ""⟩) ∧
    (∀ (b n : Nat) (rest : List Tag),
      transcribe_digit b C.Caret (Tag.FootNoteLink n :: rest) =
        ⟨some C.Content, rest, "[^" ++ toString n ++ toString (char_to_digit b)⟩) ∧
    (∀ (b n : Nat) (rest : List Tag),
      transcribe_digit b C.Caret (Tag.FootNoteRef n :: rest) =
        ⟨some C.Content, rest, "[^" ++ toString n ++ toString (char_to_digit b)⟩) ∧
    (∀ n b, push_fn_digit n b = n * 10 + (b - 48)) ∧
    transcribe_doc (strBytes "note[^12]") =
      some "<p>note<a id=\"link-12\" target=\"#ref-12\"><sup>12</sup></a></p>" := by
  refine ⟨?_, ?_, fun b n rest => rfl, fun b n rest => rfl, fun n b => rfl, rfl⟩ <;>
    · intro b prev n rest h
      unfold transcribe_digit
      rw [if_neg h]

/-- Claim C5, witness: the digit 2 (byte 50) extends index 1 to 12 when
the previous class is Digit. -/
theorem c5_witness :
    transcribe_digit 50 C.Digit [Tag.FootNoteLink 1] =
      ⟨none, [Tag.FootNoteLink 12], ""⟩ :=
  c5_digit_accumulation.1 50 C.Digit 1 [] (by decide)

/-- Claim C5, counterexample: on input "[^1][^2" the digit byte 2 is
consumed with previous class Caret and FootNoteLink 1 on top of the stack
(a reachable state), and the accumulator is popped and flushed as "[^12"
rather than updated to index 12 — the resulting stack does not hold
`FootNoteLink (push_fn_digit 1 50)`. -/
theorem c5_counterexample :
    transcribe_digit 50 C.Caret [Tag.FootNoteLink 1] =
      ⟨some C.Content, [], "[^12"⟩ ∧
    runAll (strBytes "[^1][^2") =
      some ({ ix := 7, prev_c := C.Content, tag_stack := [] }, "[^12") ∧
    (transcribe_digit 50 C.Caret [Tag.FootNoteLink 1]).stack ≠
      [Tag.FootNoteLink (push_fn_digit 1 50)] := by
  exact ⟨rfl, rfl, by decide⟩

/-- Claim C6: input "abc\n\ndef" transcribes (all bytes, then the
Finalizer) to exactly "<p>abc</p>\n<p>def</p>" — one paragraph per
blank-line-separated run, the first opened with no leading line break. -/
theorem c6_two_paragraphs :
    transcribe_doc (strBytes "abc\n\ndef") = some "<p>abc</p>\n<p>def</p>" := rfl

/-- Claim C7 (amended): a Newline consumed with previous class Colon (or
Digit) while a footnote accumulator is on top does not abort transcription:
the accumulator is popped and its literal prefix is written, followed by
the decimal rendering of the newline byte, and the run continues — on
"[^1]:\n" transcription completes with output "[^1]:10" and no error. -/
theorem c7_footnote_newline :
    (∀ (b n : Nat) (rest : List Tag),
      transcribe_newline b C.Colon (Tag.FootNoteRef n :: rest) =
        ⟨none, rest, "[^" ++ toString n ++ "]:" ++ toString b⟩) ∧
    (∀ (b n : Nat) (rest : List Tag),
      transcribe_newline b C.Digit (Tag.FootNoteLink n :: rest) =
        ⟨none, rest, "[^" ++ toString n ++ toString b⟩) ∧
    (∀ (b n : Nat) (rest : List Tag),
      transcribe_newline b C.Digit (Tag.FootNoteRef n :: rest) =
        ⟨none, rest, "[^" ++ toString n ++ toString b⟩) ∧
    transcribe_doc (strBytes "[^1]:\n") = some "[^1]:10" := by
  refine ⟨?_, ?_, ?_, rfl⟩ <;> intro b n rest <;> simp [transcribe_newline]

/-- Claim C7, counterexample: on the claim's scenario — a line break while
the previous class is Colon and a footnote definition is on top — the
transcription of "[^1]:\n" returns a result (it does not abort with an
error) and continues to completion. -/
theorem c7_counterexample :
    transcribe_doc (strBytes "[^1]:\n") = some "[^1]:10" ∧
    (transcribe_doc (strBytes "[^1]:\n")).isSome = true := ⟨rfl, rfl⟩

/-- Claim C8: a freshly constructed engine starts at cursor 0 with an
empty stack and previous class Newline, so the first byte is dispatched
exactly as a byte immediately following a line break. -/
theorem c8_initial_state :
    Transcriber.new.prev_c = C.Newline ∧
    Transcriber.new = { ix := 0, prev_c := C.Newline, tag_stack := [] } ∧
    (∀ b, stepByte b Transcriber.new =
      stepByte b { ix := 0, prev_c := C.Newline, tag_stack := [] }) :=
  ⟨rfl, rfl, fun _ => rfl⟩

/-- Claim C9: with the cursor in bounds a step always succeeds and
advances the cursor by exactly one (never decrementing it); with the
cursor at or past the end the unchecked read `input[self.ix]` has no value
— the in-bounds precondition makes that branch unreachable. -/
theorem c9_cursor_step :
    (∀ (input : List Nat) (s : Transcriber), s.ix < input.length →
      ∃ r : Transcriber × String, transcribe input s = some r ∧ r.1.ix = s.ix + 1) ∧
    (∀ (input : List Nat) (s : Transcriber), input.length ≤ s.ix →
      transcribe input s = none) :=
  ⟨fun input s h => ⟨stepByte (input.get ⟨s.ix, h⟩) s, step_some input s h, rfl⟩,
   fun input s h => step_none input s h⟩

/-- Claim C9, witness: on the one-byte input [97] the fresh engine's step
succeeds and moves the cursor to 1; on the empty input it reads out of
bounds. -/
theorem c9_witness :
    (∃ r : Transcriber × String,
      transcribe [97] Transcriber.new = some r ∧ r.1.ix = 0 + 1) ∧
    transcribe [] Transcriber.new = none :=
  ⟨c9_cursor_step.1 [97] Transcriber.new (by decide),
   c9_cursor_step.2 [] Transcriber.new (by decide)⟩

/-- Claim C10: transcription is deterministic — two runs of the engine
from a fresh state over equal inputs produce equal final states (cursor,
previous class, tag stack), equal results, and equal sink contents. -/
theorem c10_deterministic (input1 input2 : List Nat) (h : input1 = input2) :
    runAll input1 = runAll input2 ∧ transcribe_doc input1 = transcribe_doc input2 := by
  subst h
  exact ⟨rfl, rfl⟩

/-- Claim C10, witness: two runs over the input [97] agree. -/
theorem c10_witness :
    runAll [97] = runAll [97] ∧ transcribe_doc [97] = transcribe_doc [97] :=
  c10_deterministic [97] [97] rfl

end Samup
